import Mathlib

/-!
Shallow embedding of the Student-Sentinel attendance application core
(`shared/schema.ts`, `server/storage.ts`, `server/routes.ts`).

The relational store (three Postgres tables accessed through drizzle-orm)
is modelled as explicit lists of rows in a `Store` record.  Surrogate
`generatedAlwaysAsIdentity` ids are modelled by per-table counters;
`defaultNow()` timestamp columns take the store's current clock value
`now`.  SQL `returning()` is modelled by returning the affected rows
alongside the updated store.  The `status` column carries the closed
enumeration `{present, absent, late, excused}` declared in
`shared/schema.ts` (`attendanceStatusValues`).
-/

/-- The closed attendance status enumeration (`attendanceStatusValues`). -/
inductive AttendanceStatus where
  | present
  | absent
  | late
  | excused
deriving DecidableEq, Repr

/-- A row of the `students` table (`shared/schema.ts`). -/
structure Student where
  id : Nat
  studentId : String
  firstName : String
  lastName : String
  email : String
  photoUrl : Option String
deriving DecidableEq, Repr

/-- A row of the `sessions` table (`shared/schema.ts`). -/
structure Session where
  id : Nat
  name : String
  date : String
  createdAt : Nat
deriving DecidableEq, Repr

/-- A row of the `attendance_records` table (`shared/schema.ts`). -/
structure AttendanceRecord where
  id : Nat
  studentId : Nat
  sessionId : Nat
  status : AttendanceStatus
  notes : Option String
  recordedAt : Nat
deriving DecidableEq, Repr

/-- Insertable attendance fields (`InsertAttendanceRecord`: the row
without the generated `id` and `recordedAt` columns). -/
structure InsertAttendanceRecord where
  studentId : Nat
  sessionId : Nat
  status : AttendanceStatus
  notes : Option String
deriving DecidableEq, Repr

/-- Insertable student fields (`InsertStudent`: the row without the
generated `id`). -/
structure InsertStudent where
  studentId : String
  firstName : String
  lastName : String
  email : String
  photoUrl : Option String
deriving DecidableEq, Repr

/-- The whole relational store: the three tables, the identity counters,
and the current clock used for `defaultNow()` columns. -/
structure Store where
  students : List Student
  sessions : List Session
  attendance : List AttendanceRecord
  nextStudentId : Nat
  nextSessionId : Nat
  nextAttendanceId : Nat
  now : Nat
deriving DecidableEq, Repr

/-- Projection of a stored attendance row back to its insertable fields
(dropping the generated `id` and `recordedAt` columns). -/
def AttendanceRecord.insertFields (a : AttendanceRecord) : InsertAttendanceRecord :=
  ⟨a.studentId, a.sessionId, a.status, a.notes⟩

/-- Row lookup by primary key, as `where(eq(students.id, id))`. -/
def findStudent (s : Store) (id : Nat) : Option Student :=
  s.students.find? (fun st => st.id == id)

/-- Row lookup by primary key, as `where(eq(sessions.id, id))`. -/
def findSession (s : Store) (id : Nat) : Option Session :=
  s.sessions.find? (fun se => se.id == id)

/-- One `db.insert(attendanceRecords).values(records).returning()` call:
each value row receives the next identity id and the `recordedAt`
default, and is appended to the table. -/
def insertAttendanceBatch (s : Store) (recs : List InsertAttendanceRecord) :
    List AttendanceRecord × Store :=
  match recs with
  | [] => ([], s)
  | r :: rs =>
    let newRec : AttendanceRecord :=
      { id := s.nextAttendanceId, studentId := r.studentId, sessionId := r.sessionId,
        status := r.status, notes := r.notes, recordedAt := s.now }
    let s1 : Store :=
      { s with attendance := s.attendance ++ [newRec],
               nextAttendanceId := s.nextAttendanceId + 1 }
    let rest := insertAttendanceBatch s1 rs
    (newRec :: rest.1, rest.2)

/-- `DatabaseStorage.createBulkAttendance` (`server/storage.ts`, lines
119-129): an empty batch returns `[]` with no writes; otherwise the
target session id is read from the first record, every attendance row of
that session is deleted, and the full batch is inserted and returned. -/
def createBulkAttendance (s : Store) (recs : List InsertAttendanceRecord) :
    List AttendanceRecord × Store :=
  match recs with
  | [] => ([], s)
  | r :: _ =>
    let target := r.sessionId
    let s1 : Store :=
      { s with attendance := s.attendance.filter (fun a => a.sessionId != target) }
    insertAttendanceBatch s1 recs

/-- The per-status counters of `getDashboardStats` for today's records
(the object initialised to four zeroes in `server/storage.ts`). -/
structure TodayAttendance where
  present : Nat
  absent : Nat
  late : Nat
  excused : Nat
deriving DecidableEq, Repr

/-- The `DashboardStats` result shape (`shared/schema.ts`). -/
structure DashboardStats where
  totalStudents : Nat
  totalSessions : Nat
  todayAttendance : TodayAttendance
  overallAttendanceRate : Nat
  recentSessions : List Session
deriving DecidableEq, Repr

/-- Whether an attendance row joins (via `innerJoin` on `sessionId`) to a
session whose `date` equals `today` — the `where(eq(sessions.date, today))`
filter of the grouped query in `getDashboardStats`. -/
def isTodayRecord (s : Store) (today : String) (a : AttendanceRecord) : Bool :=
  match findSession s a.sessionId with
  | some se => se.date == today
  | none => false

/-- `DatabaseStorage.getSessions`: all sessions ordered by `date`
descending (`orderBy(desc(sessions.date))`; ties in arbitrary order). -/
def getSessions (s : Store) : List Session :=
  List.insertionSort (fun x y => y.date ≤ x.date) s.sessions

/-- `DatabaseStorage.getDashboardStats` (`server/storage.ts`, lines
132-190), with the implicit `new Date()` current date passed explicitly
as `today`.  `overallAttendanceRate` embeds
`Math.round((present / total) * 100)`: for a nonnegative argument
`Math.round x = ⌊x + 1/2⌋`, which over the naturals is the division
`(2 * (100 * present) + total) / (2 * total)`. -/
def getDashboardStats (s : Store) (today : String) : DashboardStats :=
  { totalStudents := s.students.length
    totalSessions := s.sessions.length
    todayAttendance :=
      { present := s.attendance.countP
          (fun a => isTodayRecord s today a && a.status == AttendanceStatus.present)
        absent := s.attendance.countP
          (fun a => isTodayRecord s today a && a.status == AttendanceStatus.absent)
        late := s.attendance.countP
          (fun a => isTodayRecord s today a && a.status == AttendanceStatus.late)
        excused := s.attendance.countP
          (fun a => isTodayRecord s today a && a.status == AttendanceStatus.excused) }
    overallAttendanceRate :=
      if 0 < s.attendance.length then
        (2 * (100 * s.attendance.countP (fun a => a.status == AttendanceStatus.present))
            + s.attendance.length)
          / (2 * s.attendance.length)
      else 0
    recentSessions := (getSessions s).take 5 }

/-- The row shape returned by `getAttendanceRecords`
(`AttendanceRecordWithStudent`): the attendance columns together with the
joined `student` and `session` rows. -/
structure JoinedRecord where
  id : Nat
  studentId : Nat
  sessionId : Nat
  status : AttendanceStatus
  notes : Option String
  recordedAt : Nat
  student : Student
  session : Session
deriving DecidableEq, Repr

/-- The inner join of one attendance row with its student and session
rows: `none` exactly when either referenced row is missing (the
`innerJoin` clauses of `getAttendanceRecords` drop such rows). -/
def joinRecord (s : Store) (a : AttendanceRecord) : Option JoinedRecord :=
  match findStudent s a.studentId with
  | none => none
  | some st =>
    match findSession s a.sessionId with
    | none => none
    | some se =>
      some ⟨a.id, a.studentId, a.sessionId, a.status, a.notes, a.recordedAt, st, se⟩

/-- The ordering contract of `getAttendanceRecords`:
`orderBy(desc(sessions.date), students.lastName)` — session date
descending, then student last name ascending. -/
def attOrder (x y : JoinedRecord) : Prop :=
  y.session.date < x.session.date
    ∨ (x.session.date = y.session.date ∧ x.student.lastName ≤ y.student.lastName)

instance : DecidableRel attOrder := fun x y => by
  unfold attOrder
  infer_instance

instance : IsTotal JoinedRecord attOrder := by
  constructor
  intro x y
  rcases lt_trichotomy x.session.date y.session.date with h | h | h
  · exact Or.inr (Or.inl h)
  · rcases le_total x.student.lastName y.student.lastName with h' | h'
    · exact Or.inl (Or.inr ⟨h, h'⟩)
    · exact Or.inr (Or.inr ⟨h.symm, h'⟩)
  · exact Or.inl (Or.inl h)

instance : IsTrans JoinedRecord attOrder := by
  constructor
  intro x y z hxy hyz
  rcases hxy with h1 | ⟨h1, h1'⟩
  · rcases hyz with h2 | ⟨h2, h2'⟩
    · exact Or.inl (lt_trans h2 h1)
    · exact Or.inl (h2 ▸ h1)
  · rcases hyz with h2 | ⟨h2, h2'⟩
    · exact Or.inl (h1 ▸ h2)
    · exact Or.inr ⟨h1.trans h2, le_trans h1' h2'⟩

/-- `DatabaseStorage.getAttendanceRecords` (`server/storage.ts`, lines
87-105): every attendance row inner-joined with its student and session,
ordered by session date descending then student last name ascending. -/
def getAttendanceRecords (s : Store) : List JoinedRecord :=
  List.insertionSort attOrder (s.attendance.filterMap (joinRecord s))

/-- The ordering contract of `getStudents`:
`orderBy(students.lastName, students.firstName)` ascending. -/
def studentOrder (x y : Student) : Prop :=
  x.lastName < y.lastName ∨ (x.lastName = y.lastName ∧ x.firstName ≤ y.firstName)

instance : DecidableRel studentOrder := fun x y => by
  unfold studentOrder
  infer_instance

/-- `DatabaseStorage.getStudents` (`server/storage.ts`, lines 43-45):
all students ordered by last name then first name. -/
def getStudents (s : Store) : List Student :=
  List.insertionSort studentOrder s.students

/-- Modelled from the spec: `email` "must satisfy a standard
email-address syntax" (`z.string().email()`; the exact regular
expression is zod library code outside this repository).  The model
accepts strings with exactly one `@` separating a non-empty local part
from a non-empty domain that contains a dot. -/
def isValidEmail (e : String) : Bool :=
  let cs := e.data
  let lp := cs.takeWhile (fun c => c != '@')
  let dom := (cs.dropWhile (fun c => c != '@')).drop 1
  (cs.count '@' == 1) && !lp.isEmpty && !dom.isEmpty && dom.contains '.'

/-- An untyped student payload as received by the routes: each JSON key
may be absent. -/
structure RawStudent where
  studentId : Option String
  firstName : Option String
  lastName : Option String
  email : Option String
  photoUrl : Option String
deriving DecidableEq, Repr

/-- The partial fields accepted by `updateStudentSchema`
(`createStudentSchema.partial()`): every field optional. -/
structure StudentPatch where
  studentId : Option String
  firstName : Option String
  lastName : Option String
  email : Option String
  photoUrl : Option String
deriving DecidableEq, Repr

/-- The all-absent patch: the empty JSON object `{}`. -/
def emptyPatch : StudentPatch := ⟨none, none, none, none, none⟩

/-- `db.update(students).set(patch)` merge semantics: each provided
field overwrites the row's field, absent fields are kept. -/
def applyPatch (st : Student) (p : StudentPatch) : Student :=
  { st with
    studentId := p.studentId.getD st.studentId
    firstName := p.firstName.getD st.firstName
    lastName := p.lastName.getD st.lastName
    email := p.email.getD st.email
    photoUrl := match p.photoUrl with | some u => some u | none => st.photoUrl }

/-- `createStudentSchema.parse` (`shared/schema.ts`, lines 65-70):
`studentId`, `firstName`, `lastName` required non-empty, `email`
required and email-syntactic, `photoUrl` optional. -/
def parseCreateStudent (r : RawStudent) : Except Unit InsertStudent :=
  match r.studentId with
  | none => Except.error ()
  | some sid =>
    match r.firstName with
    | none => Except.error ()
    | some fn =>
      match r.lastName with
      | none => Except.error ()
      | some ln =>
        match r.email with
        | none => Except.error ()
        | some em =>
          if (sid != "") && (fn != "") && (ln != "") && isValidEmail em then
            Except.ok ⟨sid, fn, ln, em, r.photoUrl⟩
          else Except.error ()

/-- Per-field rule applied to an optional field: absent fields are
accepted, provided fields must pass the same check as in create. -/
def optOk (check : String → Bool) (v : Option String) : Bool :=
  match v with
  | none => true
  | some x => check x

/-- `updateStudentSchema.parse` (`shared/schema.ts`, line 72:
`createStudentSchema.partial()`): every field optional, provided fields
validated by the same per-field rules as create. -/
def parseUpdateStudent (r : RawStudent) : Except Unit StudentPatch :=
  if optOk (fun v => v != "") r.studentId && optOk (fun v => v != "") r.firstName
      && optOk (fun v => v != "") r.lastName && optOk isValidEmail r.email then
    Except.ok ⟨r.studentId, r.firstName, r.lastName, r.email, r.photoUrl⟩
  else Except.error ()

/-- `DatabaseStorage.createStudent` (`server/storage.ts`, lines 52-55)
together with the `UNIQUE` constraint on `students.student_id`
(`shared/schema.ts`, line 10): inserting a duplicate `studentId` makes
the database raise a uniqueness-violation error. -/
def createStudent (s : Store) (v : InsertStudent) : Except Unit (Student × Store) :=
  if s.students.any (fun st => st.studentId == v.studentId) then Except.error ()
  else
    let st : Student :=
      ⟨s.nextStudentId, v.studentId, v.firstName, v.lastName, v.email, v.photoUrl⟩
    Except.ok (st, { s with students := s.students ++ [st],
                            nextStudentId := s.nextStudentId + 1 })

/-- `DatabaseStorage.updateStudent` (`server/storage.ts`, lines 57-64)
with the same `UNIQUE(student_id)` constraint: the update merges the
provided fields into the matching row and returns it, returns `none`
when the id is absent, and raises a uniqueness-violation error when the
merged `studentId` collides with another row's. -/
def updateStudent (s : Store) (id : Nat) (p : StudentPatch) :
    Except Unit (Option Student × Store) :=
  match findStudent s id with
  | none => Except.ok (none, s)
  | some st =>
    let merged := applyPatch st p
    if s.students.any (fun t => (t.id != id) && (t.studentId == merged.studentId)) then
      Except.error ()
    else
      Except.ok (some merged,
        { s with students := s.students.map (fun t => if t.id == id then merged else t) })

/-- The `POST /api/students` handler (`server/routes.ts`, lines 87-99):
validation failure (a `ZodError`) yields 400; any other thrown error —
including the database uniqueness violation from `createStudent` — falls
into the generic catch and yields 500; success yields 201 with the
updated store. -/
def postStudent (s : Store) (body : RawStudent) : Nat × Store :=
  match parseCreateStudent body with
  | Except.error _ => (400, s)
  | Except.ok v =>
    match createStudent s v with
    | Except.error _ => (500, s)
    | Except.ok (_, s') => (201, s')

/-- An untyped bulk-attendance array element: each JSON key may be
absent, and `status` arrives as an arbitrary string. -/
structure RawAttendance where
  studentId : Option Nat
  sessionId : Option Nat
  status : Option String
  notes : Option String
deriving DecidableEq, Repr

/-- `z.enum(attendanceStatusValues)`: only the four literal status
strings are accepted. -/
def parseStatus (v : String) : Option AttendanceStatus :=
  if v == "present" then some AttendanceStatus.present
  else if v == "absent" then some AttendanceStatus.absent
  else if v == "late" then some AttendanceStatus.late
  else if v == "excused" then some AttendanceStatus.excused
  else none

/-- `createAttendanceSchema.parse` (`shared/schema.ts`, lines 79-81):
`studentId` and `sessionId` required, `status` drawn from the closed
enumeration, `notes` optional. -/
def parseAttendance (r : RawAttendance) : Option InsertAttendanceRecord :=
  match r.studentId with
  | none => none
  | some stid =>
    match r.sessionId with
    | none => none
    | some seid =>
      match r.status with
      | none => none
      | some v =>
        match parseStatus v with
        | none => none
        | some st => some ⟨stid, seid, st, r.notes⟩

/-- `bulkAttendanceSchema.parse` on the `records` array
(`server/routes.ts`, lines 183-185): the whole batch parses or the whole
request is rejected. -/
def parseBulkBody (body : List RawAttendance) : Option (List InsertAttendanceRecord) :=
  match body with
  | [] => some []
  | r :: rs =>
    match parseAttendance r with
    | none => none
    | some v =>
      match parseBulkBody rs with
      | none => none
      | some vs => some (v :: vs)

/-- The `POST /api/attendance/bulk` handler (`server/routes.ts`, lines
187-199): the body is validated in full before `createBulkAttendance`
is called; a `ZodError` yields 400 with the store untouched. -/
def postBulkAttendance (s : Store) (body : List RawAttendance) : Nat × Store :=
  match parseBulkBody body with
  | none => (400, s)
  | some recs => (201, (createBulkAttendance s recs).2)

/-- Database well-formedness maintained by the store's constraints:
primary keys and the unique `student_id` column are pairwise distinct
across student rows. -/
def StoreWF (s : Store) : Prop :=
  s.students.Pairwise (fun a b => a.id ≠ b.id ∧ a.studentId ≠ b.studentId)

/-- `DatabaseStorage.deleteStudent` (`server/storage.ts`, lines 66-69)
together with the `onDelete: "cascade"` foreign key of
`attendance_records.student_id` (`shared/schema.ts`, lines 30-37):
deleting a student row also deletes every attendance row referencing it;
the returned boolean is whether any student row was removed
(`result.length > 0`). -/
def deleteStudent (s : Store) (id : Nat) : Bool × Store :=
  (s.students.any (fun st => st.id == id),
    { s with
      students := s.students.filter (fun st => st.id != id),
      attendance := s.attendance.filter (fun a => a.studentId != id) })

/-- Success test for the `Except`-valued parsers (whether `parse` would
return instead of throwing). -/
def isOkE {α : Type} (e : Except Unit α) : Bool :=
  match e with
  | Except.ok _ => true
  | Except.error _ => false

/-- Fixture: one enrolled student. -/
def student1 : Student := ⟨1, "S1", "Ann", "Lee", "ann@x.com", none⟩

/-- Fixture: one class session. -/
def session1 : Session := ⟨1, "Lecture 1", "2024-01-10", 0⟩

/-- Fixture: one attendance row linking `student1` to `session1`. -/
def record1 : AttendanceRecord := ⟨1, 1, 1, AttendanceStatus.present, none, 0⟩

/-- Fixture: a store with one student, one session and one record. -/
def store1 : Store := ⟨[student1], [session1], [record1], 2, 2, 2, 0⟩

/-- Fixture: an empty store. -/
def emptyStore : Store := ⟨[], [], [], 1, 1, 1, 0⟩

/-- Fixture: a store with 3 `present` records out of 4. -/
def rateStore : Store :=
  ⟨[], [], [⟨1, 1, 1, AttendanceStatus.present, none, 0⟩,
            ⟨2, 2, 1, AttendanceStatus.present, none, 0⟩,
            ⟨3, 3, 1, AttendanceStatus.present, none, 0⟩,
            ⟨4, 4, 1, AttendanceStatus.absent, none, 0⟩], 1, 1, 5, 0⟩

/-- Fixture: a valid create payload reusing `student1`'s `studentId`. -/
def dupBody : RawStudent := ⟨some "S1", some "Bob", some "Wu", some "bob@x.com", none⟩

/-- Fixture: `record1` joined with its student and session. -/
def joined1 : JoinedRecord :=
  ⟨1, 1, 1, AttendanceStatus.present, none, 0, student1, session1⟩

/-- Fixture: a bulk element with a missing `studentId`. -/
def badAttendance : RawAttendance := ⟨none, some 1, some "present", none⟩

theorem insertAttendanceBatch_spec (recs : List InsertAttendanceRecord) (s : Store) :
    (insertAttendanceBatch s recs).2.attendance
        = s.attendance ++ (insertAttendanceBatch s recs).1
      ∧ ((insertAttendanceBatch s recs).1.map AttendanceRecord.insertFields) = recs
      ∧ (insertAttendanceBatch s recs).2.students = s.students
      ∧ (insertAttendanceBatch s recs).2.sessions = s.sessions
      ∧ (insertAttendanceBatch s recs).2.now = s.now := by
  induction recs generalizing s with
  | nil => simp [insertAttendanceBatch]
  | cons r rs ih =>
    have h := ih ({ s with
      attendance := s.attendance ++
        [{ id := s.nextAttendanceId, studentId := r.studentId, sessionId := r.sessionId,
           status := r.status, notes := r.notes, recordedAt := s.now }],
      nextAttendanceId := s.nextAttendanceId + 1 })
    simp only [insertAttendanceBatch] at *
    refine ⟨?_, ?_, ?_, ?_, ?_⟩
    · rw [h.1]; simp [AttendanceRecord.insertFields]
    · simp [AttendanceRecord.insertFields, h.2.1]
    · exact h.2.2.1
    · exact h.2.2.2.1
    · exact h.2.2.2.2

theorem createBulkAttendance_spec
    (s : Store) (r : InsertAttendanceRecord) (rs : List InsertAttendanceRecord) :
    (createBulkAttendance s (r :: rs)).2.attendance
        = s.attendance.filter (fun a => a.sessionId != r.sessionId)
            ++ (createBulkAttendance s (r :: rs)).1
      ∧ ((createBulkAttendance s (r :: rs)).1.map AttendanceRecord.insertFields) = r :: rs
      ∧ (createBulkAttendance s (r :: rs)).2.students = s.students
      ∧ (createBulkAttendance s (r :: rs)).2.sessions = s.sessions := by
  have h := insertAttendanceBatch_spec (r :: rs)
    ({ s with attendance := s.attendance.filter (fun a => a.sessionId != r.sessionId) })
  simp only [createBulkAttendance]
  exact ⟨h.1, h.2.1, h.2.2.1, h.2.2.2.1⟩

/-- C1: on a non-empty batch, `createBulkAttendance` takes the target
session id from the first record, deletes exactly the existing rows of
that session (keeping all others), inserts the whole input batch as new
rows, and returns the inserted rows: the resulting table is the old
table restricted to other sessions followed by the returned rows, whose
insertable fields are exactly the input batch; the other tables are
untouched. -/
theorem createBulkAttendance_replaces_session
    (s : Store) (r : InsertAttendanceRecord) (rs : List InsertAttendanceRecord) :
    (createBulkAttendance s (r :: rs)).2.attendance
        = s.attendance.filter (fun a => a.sessionId != r.sessionId)
            ++ (createBulkAttendance s (r :: rs)).1
      ∧ ((createBulkAttendance s (r :: rs)).1.map AttendanceRecord.insertFields) = r :: rs
      ∧ (createBulkAttendance s (r :: rs)).2.students = s.students
      ∧ (createBulkAttendance s (r :: rs)).2.sessions = s.sessions :=
  createBulkAttendance_spec s r rs

theorem filter_map_insertFields (t : Nat) (l : List AttendanceRecord) :
    (l.filter (fun a => a.sessionId == t)).map AttendanceRecord.insertFields
      = (l.map AttendanceRecord.insertFields).filter (fun i => i.sessionId == t) := by
  induction l with
  | nil => simp
  | cons a l ih =>
    by_cases h : a.sessionId = t
    · simp [AttendanceRecord.insertFields, h, ih]
    · simp [AttendanceRecord.insertFields, h, ih]

theorem filter_ne_then_eq (t : Nat) (l : List AttendanceRecord) :
    (l.filter (fun a => a.sessionId != t)).filter (fun a => a.sessionId == t) = [] := by
  rw [List.filter_eq_nil_iff]
  intro a ha
  simp only [List.mem_filter, bne_iff_ne, ne_eq, decide_eq_true_eq] at ha ⊢
  simp [ha.2]

theorem bulk_target_rows (s : Store) (r : InsertAttendanceRecord)
    (rs : List InsertAttendanceRecord) :
    ((createBulkAttendance s (r :: rs)).2.attendance.filter
        (fun a => a.sessionId == r.sessionId)).map AttendanceRecord.insertFields
      = (r :: rs).filter (fun i => i.sessionId == r.sessionId) := by
  have h := createBulkAttendance_spec s r rs
  rw [h.1, List.filter_append, filter_ne_then_eq, List.nil_append,
    filter_map_insertFields, h.2.1]

/-- C2: replacing a session's attendance twice with the same batch is
idempotent: after the second call the rows of the target session (the
first record's `sessionId`) have the same count and the same insertable
field values as after the first call (surrogate ids and timestamps are
regenerated), and when the whole batch shares the target session id the
total attendance row count is also unchanged by the second call. -/
theorem createBulkAttendance_idempotent
    (s : Store) (r : InsertAttendanceRecord) (rs : List InsertAttendanceRecord) :
    (((createBulkAttendance (createBulkAttendance s (r :: rs)).2 (r :: rs)).2.attendance.filter
          (fun a => a.sessionId == r.sessionId)).map AttendanceRecord.insertFields
        = ((createBulkAttendance s (r :: rs)).2.attendance.filter
          (fun a => a.sessionId == r.sessionId)).map AttendanceRecord.insertFields)
      ∧ ((createBulkAttendance (createBulkAttendance s (r :: rs)).2 (r :: rs)).2.attendance.filter
          (fun a => a.sessionId == r.sessionId)).length
        = ((createBulkAttendance s (r :: rs)).2.attendance.filter
          (fun a => a.sessionId == r.sessionId)).length
      ∧ ((∀ x ∈ r :: rs, x.sessionId = r.sessionId) →
          (createBulkAttendance (createBulkAttendance s (r :: rs)).2 (r :: rs)).2.attendance.length
            = (createBulkAttendance s (r :: rs)).2.attendance.length) := by
  have hmap : _ = _ := (bulk_target_rows (createBulkAttendance s (r :: rs)).2 r rs).trans
    (bulk_target_rows s r rs).symm
  refine ⟨hmap, ?_, ?_⟩
  · have := congrArg List.length hmap
    simpa using this
  · intro hall
    have h1 := createBulkAttendance_spec s r rs
    have h2 := createBulkAttendance_spec (createBulkAttendance s (r :: rs)).2 r rs
    have hout1 : ∀ a ∈ (createBulkAttendance s (r :: rs)).1, a.sessionId = r.sessionId := by
      intro a ha
      have : a.insertFields ∈ (r :: rs) := by
        rw [← h1.2.1]; exact List.mem_map_of_mem _ ha
      simpa [AttendanceRecord.insertFields] using hall _ this
    have hlen1 : (createBulkAttendance s (r :: rs)).1.length = (r :: rs).length := by
      have := congrArg List.length h1.2.1
      simpa using this
    have hlen2 : (createBulkAttendance (createBulkAttendance s (r :: rs)).2 (r :: rs)).1.length
        = (r :: rs).length := by
      have := congrArg List.length h2.2.1
      simpa using this
    have hfilt : ((createBulkAttendance s (r :: rs)).1.filter
        (fun a => a.sessionId != r.sessionId)) = [] := by
      rw [List.filter_eq_nil_iff]
      intro a ha
      simp [hout1 a ha]
    rw [h2.1, h1.1, List.filter_append]
    have hff : ((s.attendance.filter (fun a => a.sessionId != r.sessionId)).filter
        (fun a => a.sessionId != r.sessionId))
        = s.attendance.filter (fun a => a.sessionId != r.sessionId) := by
      rw [List.filter_eq_self]
      intro a ha
      exact (List.mem_filter.mp ha).2
    rw [hff, hfilt, List.append_nil]
    simp [hlen1, hlen2]

/-- C3: `createBulkAttendance` on the empty batch returns the empty
sequence and leaves the store (all three tables) unchanged. -/
theorem createBulkAttendance_nil (s : Store) :
    createBulkAttendance s [] = ([], s) := by
  rfl

theorem joinRecord_eq_some (s : Store) (a : AttendanceRecord) (x : JoinedRecord) :
    joinRecord s a = some x ↔
      findStudent s a.studentId = some x.student
        ∧ findSession s a.sessionId = some x.session
        ∧ x = ⟨a.id, a.studentId, a.sessionId, a.status, a.notes, a.recordedAt,
            x.student, x.session⟩ := by
  cases h1 : findStudent s a.studentId with
  | none => rw [joinRecord.eq_def, h1]; simp
  | some st =>
    cases h2 : findSession s a.sessionId with
    | none => rw [joinRecord.eq_def, h1, h2]; simp
    | some se =>
      rw [joinRecord.eq_def, h1, h2]
      dsimp only
      constructor
      · intro h
        have hx := Option.some.inj h
        subst hx
        exact ⟨rfl, rfl, rfl⟩
      · intro ⟨hst, hse, hx⟩
        have hst' := Option.some.inj hst
        have hse' := Option.some.inj hse
        rw [hx, hst', hse']

/-- C6: `getAttendanceRecords` returns exactly the attendance rows whose
referenced student and session both exist (a permutation of the inner
join; orphaned rows are silently excluded, never an error), each joined
with that student and session, and the output is sorted by session date
descending then student last name ascending. -/
theorem attendance_records_join (s : Store) :
    (getAttendanceRecords s).Perm (s.attendance.filterMap (joinRecord s))
      ∧ List.Sorted attOrder (getAttendanceRecords s)
      ∧ (∀ x, x ∈ getAttendanceRecords s ↔
          ∃ a ∈ s.attendance, joinRecord s a = some x)
      ∧ (∀ x ∈ getAttendanceRecords s,
          findStudent s x.studentId = some x.student
            ∧ findSession s x.sessionId = some x.session) := by
  have hperm := List.perm_insertionSort attOrder (s.attendance.filterMap (joinRecord s))
  have hmem : ∀ x, x ∈ getAttendanceRecords s ↔
      ∃ a ∈ s.attendance, joinRecord s a = some x := by
    intro x
    rw [getAttendanceRecords, hperm.mem_iff, List.mem_filterMap]
  refine ⟨hperm, List.sorted_insertionSort attOrder _, hmem, ?_⟩
  intro x hx
  obtain ⟨a, _, hja⟩ := (hmem x).mp hx
  obtain ⟨hst, hse, hshape⟩ := (joinRecord_eq_some s a x).mp hja
  have hsid : x.studentId = a.studentId := by rw [hshape]
  have hssid : x.sessionId = a.sessionId := by rw [hshape]
  rw [hsid, hssid]
  exact ⟨hst, hse⟩

theorem countP_status_partition (p : AttendanceRecord → Bool) (l : List AttendanceRecord) :
    l.countP (fun a => p a && a.status == AttendanceStatus.present)
      + l.countP (fun a => p a && a.status == AttendanceStatus.absent)
      + l.countP (fun a => p a && a.status == AttendanceStatus.late)
      + l.countP (fun a => p a && a.status == AttendanceStatus.excused)
      = l.countP p := by
  induction l with
  | nil => simp
  | cons a l ih =>
    by_cases hp : p a
    · cases ha : a.status <;> simp [List.countP_cons, ha, hp] <;> omega
    · simp [List.countP_cons, hp]
      omega

theorem filter_ne_studentId_length (id : Nat) (l : List AttendanceRecord) :
    (l.filter (fun a => a.studentId != id)).length
        + l.countP (fun a => a.studentId == id) = l.length := by
  induction l with
  | nil => simp
  | cons a l ih =>
    by_cases h : a.studentId = id
    · have hb : (a.studentId != id) = false := by simp [h]
      have hp : (a.studentId == id) = true := by simp [h]
      simp [List.filter_cons, List.countP_cons, hb, hp]
      omega
    · have hb : (a.studentId != id) = true := by simp [h]
      have hp : (a.studentId == id) = false := by simp [h]
      simp [List.filter_cons, List.countP_cons, hb, hp]
      omega

/-- C7: deleting an existing student returns `true`, removes that
student row and exactly its attendance rows (their count plus the
remaining count restores the original total), leaves every other
student, every other attendance row and all sessions in place, and the
joined attendance listing afterwards contains no record of the deleted
student. -/
theorem delete_student_cascade (s : Store) (id : Nat)
    (h : ∃ st ∈ s.students, st.id = id) :
    (deleteStudent s id).1 = true
      ∧ (deleteStudent s id).2.students = s.students.filter (fun st => st.id != id)
      ∧ (deleteStudent s id).2.attendance
          = s.attendance.filter (fun a => a.studentId != id)
      ∧ (deleteStudent s id).2.sessions = s.sessions
      ∧ (deleteStudent s id).2.attendance.length
            + s.attendance.countP (fun a => a.studentId == id)
          = s.attendance.length
      ∧ (∀ st ∈ s.students, st.id ≠ id → st ∈ (deleteStudent s id).2.students)
      ∧ (∀ a ∈ s.attendance, a.studentId ≠ id → a ∈ (deleteStudent s id).2.attendance)
      ∧ (∀ x ∈ getAttendanceRecords (deleteStudent s id).2, x.studentId ≠ id) := by
  obtain ⟨st0, hmem0, hid0⟩ := h
  refine ⟨?_, rfl, rfl, rfl, filter_ne_studentId_length id s.attendance, ?_, ?_, ?_⟩
  · simp only [deleteStudent, List.any_eq_true]
    exact ⟨st0, hmem0, by simp [hid0]⟩
  · intro st hst hne
    simp only [deleteStudent, List.mem_filter]
    exact ⟨hst, by simp [hne]⟩
  · intro a ha hne
    simp only [deleteStudent, List.mem_filter]
    exact ⟨ha, by simp [hne]⟩
  · intro x hx
    have hperm := List.perm_insertionSort attOrder
      ((deleteStudent s id).2.attendance.filterMap (joinRecord (deleteStudent s id).2))
    rw [getAttendanceRecords, hperm.mem_iff, List.mem_filterMap] at hx
    obtain ⟨a, ha, hja⟩ := hx
    obtain ⟨-, -, hshape⟩ := (joinRecord_eq_some _ a x).mp hja
    have hxs : x.studentId = a.studentId := by rw [hshape]
    have hane : (a.studentId != id) = true := (List.mem_filter.mp ha).2
    rw [hxs]
    simpa using hane

/-- C4: `overallAttendanceRate` is 0 on an empty attendance table, and
otherwise equals the round-half-up integer percentage
`⌊100 * presentCount / totalCount + 1/2⌋` over all attendance records;
in particular it is 100 when every record is `present` (and at least one
record exists) and 75 for 3 present records out of 4. -/
theorem dashboard_overall_rate (s : Store) (today : String) :
    (s.attendance.length = 0 → (getDashboardStats s today).overallAttendanceRate = 0)
      ∧ (0 < s.attendance.length →
          (getDashboardStats s today).overallAttendanceRate
            = ⌊(100 * (s.attendance.countP
                  (fun a => a.status == AttendanceStatus.present)) : ℚ)
                / (s.attendance.length : ℚ) + 1 / 2⌋₊)
      ∧ (0 < s.attendance.length →
          (∀ a ∈ s.attendance, a.status = AttendanceStatus.present) →
          (getDashboardStats s today).overallAttendanceRate = 100)
      ∧ (s.attendance.countP (fun a => a.status == AttendanceStatus.present) = 3 →
          s.attendance.length = 4 →
          (getDashboardStats s today).overallAttendanceRate = 75) := by
  refine ⟨?_, ?_, ?_, ?_⟩
  · intro h
    simp [getDashboardStats, h]
  · intro ht
    have ht' : ((s.attendance.length : ℚ)) ≠ 0 := by
      have : (0 : ℚ) < (s.attendance.length : ℚ) := by exact_mod_cast ht
      exact ne_of_gt this
    simp only [getDashboardStats, if_pos ht]
    have hq : (100 * (s.attendance.countP
          (fun a => a.status == AttendanceStatus.present)) : ℚ)
          / (s.attendance.length : ℚ) + 1 / 2
        = ((2 * (100 * s.attendance.countP
              (fun a => a.status == AttendanceStatus.present))
            + s.attendance.length : ℕ) : ℚ)
          / ((2 * s.attendance.length : ℕ) : ℚ) := by
      push_cast
      field_simp
      ring
    rw [hq, Nat.floor_div_eq_div]
  · intro ht hall
    have hp : s.attendance.countP (fun a => a.status == AttendanceStatus.present)
        = s.attendance.length := by
      rw [List.countP_eq_length]
      intro a ha
      simp [hall a ha]
    simp only [getDashboardStats, if_pos ht, hp]
    have h1 : 100 * (2 * s.attendance.length)
        ≤ 2 * (100 * s.attendance.length) + s.attendance.length := by omega
    have h2 : 2 * (100 * s.attendance.length) + s.attendance.length
        < (100 + 1) * (2 * s.attendance.length) := by omega
    exact Nat.div_eq_of_lt_le h1 h2
  · intro hp ht
    simp [getDashboardStats, hp, ht]

/-- C5: `todayAttendance` always carries all four status keys, their
values sum to the number of attendance records whose referenced session
is dated `today`, and each key is 0 when no record matches. -/
theorem dashboard_today_attendance (s : Store) (today : String) :
    ((getDashboardStats s today).todayAttendance.present
        + (getDashboardStats s today).todayAttendance.absent
        + (getDashboardStats s today).todayAttendance.late
        + (getDashboardStats s today).todayAttendance.excused
      = s.attendance.countP (fun a => isTodayRecord s today a))
      ∧ (s.attendance.countP (fun a => isTodayRecord s today a) = 0 →
          (getDashboardStats s today).todayAttendance.present = 0
            ∧ (getDashboardStats s today).todayAttendance.absent = 0
            ∧ (getDashboardStats s today).todayAttendance.late = 0
            ∧ (getDashboardStats s today).todayAttendance.excused = 0) := by
  have hs := countP_status_partition (fun a => isTodayRecord s today a) s.attendance
  constructor
  · simpa [getDashboardStats] using hs
  · intro h0
    rw [h0] at hs
    simp only [getDashboardStats]
    omega

theorem map_ite_id (id : Nat) (st : Student) (l : List Student)
    (h : ∀ t ∈ l, t.id = id → t = st) :
    l.map (fun t => if t.id == id then st else t) = l := by
  induction l with
  | nil => rfl
  | cons a l ih =>
    simp only [List.map_cons]
    have ha : (if a.id == id then st else a) = a := by
      by_cases hc : a.id = id
      · simp [hc, (h a (List.mem_cons_self a l) hc).symm]
      · simp [hc]
    rw [ha, ih (fun t ht => h t (List.mem_cons_of_mem a ht))]

theorem wf_unique_of_find (s : Store) (id : Nat) (st : Student)
    (hwf : StoreWF s) (hfind : findStudent s id = some st) :
    st ∈ s.students ∧ st.id = id
      ∧ (∀ t ∈ s.students, t.id = id → t = st)
      ∧ ∀ t ∈ s.students, t.id ≠ id → t.studentId ≠ st.studentId := by
  have hmem : st ∈ s.students := List.mem_of_find?_eq_some hfind
  have hid : st.id = id := by
    have := List.find?_some hfind
    simpa using this
  have hsymm : Symmetric (fun a b : Student => a.id ≠ b.id ∧ a.studentId ≠ b.studentId) :=
    fun a b h => ⟨h.1.symm, h.2.symm⟩
  have hall := hwf.forall hsymm
  refine ⟨hmem, hid, ?_, ?_⟩
  · intro t ht htid
    by_contra hne
    exact (hall ht hmem hne).1 (htid.trans hid.symm)
  · intro t ht htid
    have hne : t ≠ st := by
      intro he
      exact htid (he ▸ hid)
    exact (hall ht hmem hne).2

/-- C9: student update semantics: the empty object passes validation and
updates nothing (for an existing id it succeeds and returns the student
unchanged), a fully-provided update payload validates under exactly the
same per-field rules as create, an absent id yields not-found without a
write, and a valid patch merges exactly the provided fields into the
matching row, leaving every other row alone. -/
theorem update_student_semantics :
    (parseUpdateStudent ⟨none, none, none, none, none⟩ = Except.ok emptyPatch)
      ∧ (∀ sid fn ln em pu,
          isOkE (parseUpdateStudent ⟨some sid, some fn, some ln, some em, pu⟩)
            = isOkE (parseCreateStudent ⟨some sid, some fn, some ln, some em, pu⟩))
      ∧ (∀ s id, findStudent s id = none → ∀ p,
          updateStudent s id p = Except.ok (none, s))
      ∧ (∀ s id st, StoreWF s → findStudent s id = some st →
          updateStudent s id emptyPatch = Except.ok (some st, s))
      ∧ (∀ s id st p, findStudent s id = some st →
          (∀ t ∈ s.students, t.id ≠ id → t.studentId ≠ (applyPatch st p).studentId) →
          updateStudent s id p
            = Except.ok (some (applyPatch st p),
                { s with students := (s.students.map (fun t =>
                    if t.id == id then applyPatch st p else t)) })) := by
  refine ⟨rfl, ?_, ?_, ?_, ?_⟩
  · intro sid fn ln em pu
    cases hb : (sid != "") && (fn != "") && (ln != "") && isValidEmail em <;>
      simp [parseUpdateStudent, parseCreateStudent, optOk, hb, isOkE]
  · intro s id h p
    rw [updateStudent.eq_def, h]
  · intro s id st hwf hfind
    obtain ⟨hmem, hid, huniq, hsid⟩ := wf_unique_of_find s id st hwf hfind
    rw [updateStudent.eq_def, hfind]
    dsimp only
    have happ : applyPatch st emptyPatch = st := rfl
    rw [happ]
    have hany : (s.students.any fun t => (t.id != id) && (t.studentId == st.studentId))
        = false := by
      rw [Bool.eq_false_iff]
      intro hc
      rw [List.any_eq_true] at hc
      obtain ⟨t, htmem, htc⟩ := hc
      rw [Bool.and_eq_true] at htc
      have h1 : t.id ≠ id := by simpa using htc.1
      have h2 : t.studentId = st.studentId := by simpa using htc.2
      exact hsid t htmem h1 h2
    rw [hany]
    simp only [Bool.false_eq_true, if_false]
    rw [map_ite_id id st s.students huniq]
  · intro s id st p hfind hnc
    rw [updateStudent.eq_def, hfind]
    dsimp only
    have hany : (s.students.any fun t =>
        (t.id != id) && (t.studentId == (applyPatch st p).studentId)) = false := by
      rw [Bool.eq_false_iff]
      intro hc
      rw [List.any_eq_true] at hc
      obtain ⟨t, htmem, htc⟩ := hc
      rw [Bool.and_eq_true] at htc
      have h1 : t.id ≠ id := by simpa using htc.1
      have h2 : t.studentId = (applyPatch st p).studentId := by simpa using htc.2
      exact hnc t htmem h1 h2
    rw [hany]
    simp only [Bool.false_eq_true, if_false]

theorem parseBulkBody_none (body : List RawAttendance)
    (h : ∃ r ∈ body, parseAttendance r = none) :
    parseBulkBody body = none := by
  induction body with
  | nil => simp at h
  | cons r rs ih =>
    obtain ⟨r', hr', hnone⟩ := h
    rcases List.mem_cons.mp hr' with heq | hmem
    · subst heq
      simp only [parseBulkBody, hnone]
    · cases hp : parseAttendance r with
      | none => simp only [parseBulkBody, hp]
      | some v => simp only [parseBulkBody, hp, ih ⟨r', hmem, hnone⟩]

/-- C10: a bulk attendance request in which some record is missing
`studentId` or `sessionId` or carries a status outside the closed
enumeration is rejected with 400 before the storage layer runs: the
store is returned unchanged, so nothing is deleted and nothing is
inserted. -/
theorem bulk_invalid_rejected (s : Store) (body : List RawAttendance)
    (h : ∃ r ∈ body, r.studentId = none ∨ r.sessionId = none
        ∨ ∀ v, r.status = some v → parseStatus v = none) :
    postBulkAttendance s body = (400, s) := by
  have hpn : ∃ r ∈ body, parseAttendance r = none := by
    obtain ⟨r, hr, hc⟩ := h
    refine ⟨r, hr, ?_⟩
    cases hs1 : r.studentId with
    | none => rw [parseAttendance.eq_def, hs1]
    | some a =>
      cases hs2 : r.sessionId with
      | none => rw [parseAttendance.eq_def, hs1, hs2]
      | some b =>
        rcases hc with h1 | h1 | h1
        · simp [h1] at hs1
        · simp [h1] at hs2
        · cases hs3 : r.status with
          | none => rw [parseAttendance.eq_def, hs1, hs2, hs3]
          | some v =>
            rw [parseAttendance.eq_def, hs1, hs2, hs3]
            dsimp only
            rw [h1 v hs3]
  have hb := parseBulkBody_none body hpn
  rw [postBulkAttendance.eq_def, hb]

theorem duplicate_student_is_500 (s : Store) (body : RawStudent) (v : InsertStudent)
    (hparse : parseCreateStudent body = Except.ok v)
    (hdup : (getStudents s).countP (fun st => st.studentId == v.studentId) = 1) :
    postStudent s body = (500, s)
      ∧ (getStudents (postStudent s body).2).countP
          (fun st => st.studentId == v.studentId) = 1 := by
  have hperm : (getStudents s).Perm s.students :=
    List.perm_insertionSort studentOrder s.students
  have hcs : s.students.countP (fun st => st.studentId == v.studentId) = 1 := by
    rw [← hperm.countP_eq]
    exact hdup
  have hpos : 0 < s.students.countP (fun st => st.studentId == v.studentId) := by
    rw [hcs]
    norm_num
  have hex := List.countP_pos_iff.mp hpos
  have hany : s.students.any (fun st => st.studentId == v.studentId) = true := by
    rw [List.any_eq_true]
    exact hex
  have h500 : postStudent s body = (500, s) := by
    rw [postStudent.eq_def, hparse]
    dsimp only
    rw [createStudent.eq_def, hany]
    simp
  refine ⟨h500, ?_⟩
  rw [h500]
  exact hdup

/-- Witness for C2 at a concrete one-record batch. -/
theorem createBulkAttendance_idempotent_witness :
    (createBulkAttendance (createBulkAttendance emptyStore
          [⟨1, 1, AttendanceStatus.present, none⟩]).2
        [⟨1, 1, AttendanceStatus.present, none⟩]).2.attendance.length
      = (createBulkAttendance emptyStore
          [⟨1, 1, AttendanceStatus.present, none⟩]).2.attendance.length :=
  (createBulkAttendance_idempotent emptyStore ⟨1, 1, AttendanceStatus.present, none⟩ []).2.2
    (by decide)

/-- Witness for C4 at concrete stores: 3 of 4 present gives 75, an empty
table gives 0. -/
theorem dashboard_overall_rate_witness :
    (getDashboardStats rateStore "2024-01-10").overallAttendanceRate = 75
      ∧ (getDashboardStats emptyStore "2024-01-10").overallAttendanceRate = 0 :=
  ⟨(dashboard_overall_rate rateStore "2024-01-10").2.2.2 (by decide) (by decide),
   (dashboard_overall_rate emptyStore "2024-01-10").1 (by decide)⟩

/-- Witness for C5 at concrete stores. -/
theorem dashboard_today_attendance_witness :
    (getDashboardStats store1 "2024-01-10").todayAttendance.present
        + (getDashboardStats store1 "2024-01-10").todayAttendance.absent
        + (getDashboardStats store1 "2024-01-10").todayAttendance.late
        + (getDashboardStats store1 "2024-01-10").todayAttendance.excused = 1
      ∧ (getDashboardStats emptyStore "2024-01-10").todayAttendance.present = 0 :=
  ⟨((dashboard_today_attendance store1 "2024-01-10").1).trans (by decide),
   ((dashboard_today_attendance emptyStore "2024-01-10").2 (by decide)).1⟩

/-- Witness for C6 at a concrete store. -/
theorem attendance_records_join_witness :
    findStudent store1 joined1.studentId = some joined1.student
      ∧ findSession store1 joined1.sessionId = some joined1.session :=
  (attendance_records_join store1).2.2.2 joined1 (by decide)

/-- Witness for C7: deleting `student1` from `store1`. -/
theorem delete_student_cascade_witness :
    (deleteStudent store1 1).1 = true
      ∧ (deleteStudent store1 1).2.attendance.length
          + store1.attendance.countP (fun a => a.studentId == 1)
        = store1.attendance.length :=
  ⟨(delete_student_cascade store1 1 (by decide)).1,
   (delete_student_cascade store1 1 (by decide)).2.2.2.2.1⟩

/-- C8 counterexample: at `store1` (which already holds `studentId`
"S1") a second, otherwise valid creation with `studentId` "S1" is
reported by the handler as 500, not as a client error. -/
theorem duplicate_student_counterexample :
    (postStudent store1 dupBody).1 = 500 := by
  decide

/-- Witness for the amended C8 at `store1` and `dupBody`. -/
theorem duplicate_student_is_500_witness :
    postStudent store1 dupBody = (500, store1)
      ∧ (getStudents (postStudent store1 dupBody).2).countP
          (fun st => st.studentId == "S1") = 1 := by
  have h := duplicate_student_is_500 store1 dupBody
    ⟨"S1", "Bob", "Wu", "bob@x.com", none⟩ rfl (by decide)
  exact ⟨h.1, h.2⟩

/-- Witness for C9: the empty-object update of an existing student
succeeds and changes nothing. -/
theorem update_student_semantics_witness :
    updateStudent store1 1 emptyPatch = Except.ok (some student1, store1) :=
  (update_student_semantics).2.2.2.1 store1 1 student1
    (by simp [StoreWF, store1]) (by decide)

/-- Witness for C10: a batch whose only record lacks `studentId` is
rejected with 400 and the store is untouched. -/
theorem bulk_invalid_rejected_witness :
    postBulkAttendance store1 [badAttendance] = (400, store1) :=
  bulk_invalid_rejected store1 [badAttendance]
    ⟨badAttendance, List.mem_singleton.mpr rfl, Or.inl rfl⟩
